import Mathlib

/-!
Shallow embedding of `src/appdashboard.py` (DASHBOARD_FACTU).

The program is a single-script dashboard.  Its core is the function
`procesar_y_graficar(df, titulo, es_legalizacion)` (lines 85-151) which, given a
pandas DataFrame, the global sidebar filter state (`tipo_legalizacion`,
`sel_usuarios`, `start_date`, `end_date`) and a flag, applies a
category / date / operator filter pipeline and renders one of two aggregate
views (a ranking table or a time-series comparison), or one of several
informational signals.  Lines 154-178 run the three tabs.

Modelling conventions:
  * A DataFrame is a column-name list plus a list of rows; a row is an
    association list from column name to `Cell`.  A cell absent from a row
    reads as `Cell.null` (pandas NaN).
  * `Cell.date d` stands for a value that `pd.to_datetime` parses, with `d`
    the calendar day as an integer (the program only ever compares the
    `.dt.date` parts, so day granularity is faithful); `Cell.str s` stands
    for a value that does not parse as a date.  `Cell.null` is NaN/NaT.
  * `pd.Series.value_counts()` is modelled as: the distinct non-null values
    in order of first appearance (pandas hash-table order), each with its
    count, stably sorted by count descending (`sort_values(ascending=False)`).
  * `groupby([day, user]).size()` (line 139) is modelled likewise on
    (day, user) pairs, sorted ascending by key (`groupby(sort=True)`), null
    keys dropped.
  * An uncaught Python `KeyError` (indexing a missing column at line 107 or
    120/149) is modelled by the outcome `Outcome.keyError`; in Streamlit an
    uncaught exception stops the script run, which `runScript` reflects by
    not running the remaining tabs.
  * Line 100 `df[col_f] = pd.to_datetime(df[col_f], errors='coerce')` writes
    the parsed column back into the object currently bound to `df`.  When no
    earlier statement rebound `df` (no legalization filtering), that object
    is the caller's stored DataFrame, so the call mutates it in place.
    `procesar_y_graficar` therefore returns, next to the rendered outcome,
    the post-call state of the caller's DataFrame object (`origAfterCall`).
-/

namespace Dashboard

/-- A cell value: a date-parseable value (as a calendar day number), a
non-date value, or NaN/NaT. -/
inductive Cell where
  | str (s : String)
  | date (d : Int)
  | null
deriving DecidableEq

/-- One DataFrame row: an association list column name to cell. -/
abbrev Row := List (String × Cell)

/-- A pandas DataFrame: its column list and its rows. -/
structure DF where
  cols : List String
  rows : List Row
deriving DecidableEq

/-- Read a cell; a column missing from the row reads as NaN. -/
def getCell (r : Row) (c : String) : Cell :=
  (r.lookup c).getD Cell.null

/-- Write a cell (pandas column assignment at the row level): replace the
existing binding, or append one. -/
def setCell : Row → String → Cell → Row
  | [], c, v => [(c, v)]
  | (c', v') :: t, c, v =>
      if c' = c then (c, v) :: t else (c', v') :: setCell t c v

/-- The global sidebar filter state (lines 67-81). -/
structure FilterState where
  tipo_legalizacion : List String
  sel_usuarios : List String
  start_date : Int
  end_date : Int
deriving DecidableEq

/-- `pd.to_datetime(v, errors='coerce')` on one cell: parseable values keep
their date, everything else becomes NaT. -/
def toDatetime : Cell → Cell
  | .date d => .date d
  | _ => .null

/-- `v` is a parsed (non-NaT) date. -/
def isDate : Cell → Bool
  | .date _ => true
  | _ => false

/-- Line 105: `'Todos' not in sel_usuarios and len(sel_usuarios) > 0`. -/
def esFiltroActivo (fs : FilterState) : Bool :=
  !(fs.sel_usuarios.contains "Todos") && decide (0 < fs.sel_usuarios.length)

/-- `series.isin(xs)` on one cell, for a list of strings. -/
def cellIsin (v : Cell) (xs : List String) : Bool :=
  match v with
  | .str s => xs.contains s
  | _ => false

/-- Line 96: `df[df['Tipo_Leg'].isin(tipo_legalizacion)]`. -/
def filterTipo (fs : FilterState) (df : DF) : DF :=
  ⟨df.cols, df.rows.filter (fun r => cellIsin (getCell r "Tipo_Leg") fs.tipo_legalizacion)⟩

/-- Line 100: `df[col_f] = pd.to_datetime(df[col_f], errors='coerce')`. -/
def parseDates (df : DF) (cf : String) : DF :=
  ⟨df.cols, df.rows.map (fun r => setCell r cf (toDatetime (getCell r cf)))⟩

/-- Line 101: `df.dropna(subset=[col_f])`. -/
def dropnaDate (df : DF) (cf : String) : DF :=
  ⟨df.cols, df.rows.filter (fun r => !(getCell r cf == Cell.null))⟩

/-- Line 102's row predicate: `start_date <= d and d <= end_date` on the
parsed date (false on anything that is not a parsed date). -/
def inRange (fs : FilterState) (v : Cell) : Bool :=
  match v with
  | .date d => decide (fs.start_date ≤ d) && decide (d ≤ fs.end_date)
  | _ => false

/-- Line 102: `df[(df[col_f].dt.date >= start_date) & (df[col_f].dt.date <= end_date)]`. -/
def rangeFilter (fs : FilterState) (df : DF) (cf : String) : DF :=
  ⟨df.cols, df.rows.filter (fun r => inRange fs (getCell r cf))⟩

/-- The whole date-filter stage, lines 99-102. -/
def dateStage (fs : FilterState) (df : DF) (cf : String) : DF :=
  rangeFilter fs (dropnaDate (parseDates df cf) cf) cf

/-- Line 107: `df[df[col_u].isin(sel_usuarios)]`. -/
def filterUsuarios (fs : FilterState) (df : DF) (cu : String) : DF :=
  ⟨df.cols, df.rows.filter (fun r => cellIsin (getCell r cu) fs.sel_usuarios)⟩

/-- Line 92's candidate list. -/
def dateCandidates : List String :=
  ["FECHA_REAL", "FECHA_FACTURA", "FECHA", "Fecha"]

/-- Line 91: `col_u = 'USUARIO' if 'USUARIO' in df.columns else 'Usuario'`.
Note the fallback is taken even when `'Usuario'` is not a column either. -/
def resolveColU (df : DF) : String :=
  if df.cols.contains "USUARIO" then "USUARIO" else "Usuario"

/-- Line 92: `col_f = next((c for c in [...] if c in df.columns), None)`. -/
def resolveColF (df : DF) : Option String :=
  dateCandidates.find? (fun c => df.cols.contains c)

/-- Distinct elements of a list in order of first appearance (the key order a
pandas hash table produces before `value_counts` sorts). -/
def firstAppearance {α : Type} [DecidableEq α] : List α → List α
  | [] => []
  | v :: t => v :: (firstAppearance t).filter (fun x => !(x == v))

/-- `l.count v` pinned to the `DecidableEq`-derived equality test (so that
the same test is used at every element type, products included). -/
def countEq {α : Type} [DecidableEq α] (l : List α) (v : α) : Nat :=
  l.count v

/-- Comparator for `sort_values(ascending=False)` on counts. -/
def leCount (a b : Cell × Nat) : Bool :=
  decide (b.2 ≤ a.2)

/-- Stable insertion: `x` goes immediately before the first element it
compares `le` to. -/
def insertStable {α : Type} (le : α → α → Bool) (x : α) : List α → List α
  | [] => [x]
  | h :: t => if le x h then x :: h :: t else h :: insertStable le x t

/-- Stable insertion sort. -/
def isort {α : Type} (le : α → α → Bool) : List α → List α
  | [] => []
  | h :: t => insertStable le h (isort le t)

/-- The non-null operator-column values of the rows, in row order
(the series `df[col_u]` with NaN dropped, as `value_counts` sees it). -/
def opVals (rows : List Row) (cu : String) : List Cell :=
  (rows.map (fun r => getCell r cu)).filter (fun v => !(v == Cell.null))

/-- Lines 120/149: `df[col_u].value_counts()` — distinct non-null values with
their counts, sorted by count descending (ties keep first-appearance order). -/
def value_counts (rows : List Row) (cu : String) : List (Cell × Nat) :=
  isort leCount
    ((firstAppearance (opVals rows cu)).map (fun v => (v, (opVals rows cu).count v)))

/-- `.round(2)` on an exact rational. -/
def round2 (x : ℚ) : ℚ :=
  ((round (100 * x) : ℤ) : ℚ) / 100

/-- Lines 120-131: the ranking table — per operator its count and
`(count / counts.sum() * 100).round(2)`. -/
def rankingRows (rows : List Row) (cu : String) : List (Cell × Nat × ℚ) :=
  let counts := value_counts rows cu
  let total : ℚ := (((counts.map (fun p => p.2)).sum : ℕ) : ℚ)
  counts.map (fun p => (p.1, p.2, round2 ((p.2 : ℚ) / total * 100)))

/-- Total order used to model pandas' ascending sort of group keys. -/
def cellLe : Cell → Cell → Bool
  | .null, _ => true
  | .date _, .null => false
  | .date a, .date b => decide (a ≤ b)
  | .date _, .str _ => true
  | .str _, .null => false
  | .str _, .date _ => false
  | .str a, .str b => !(decide (b < a))

/-- Lexicographic key order on (day, user) group keys. -/
def pairLe (a b : Cell × Cell) : Bool :=
  if a.1 == b.1 then cellLe a.2 b.2 else cellLe a.1 b.1

/-- The (day, user) key of each row (lines 138-139), null keys dropped as
`groupby` does. -/
def evolPairs (rows : List Row) (cf cu : String) : List (Cell × Cell) :=
  (rows.map (fun r => (getCell r cf, getCell r cu))).filter
    (fun p => !(p.1 == Cell.null) && !(p.2 == Cell.null))

/-- Line 139: `df.groupby(['Dia_Evolucion', col_u]).size()` — one entry per
distinct (day, user) pair with its count, keys sorted ascending. -/
def evolTable (rows : List Row) (cf cu : String) : List ((Cell × Cell) × Nat) :=
  (isort pairLe (firstAppearance (evolPairs rows cf cu))).map
    (fun k => (k, countEq (evolPairs rows cf cu) k))

/-- What one `procesar_y_graficar` call renders. -/
inductive Outcome where
  /-- Line 87: `st.info("No hay datos cargados...")`. -/
  | noData
  /-- Line 171: `st.info("Sincroniza los datos...")` (Legalizaciones tab with
  neither source present). -/
  | sinDatosSync
  /-- Line 110: `st.warning("No hay datos para mostrar...")`. -/
  | emptyAfterFilter
  /-- An uncaught Python `KeyError` on the named column. -/
  | keyError (col : String)
  /-- Lines 114-132: the metric plus the ranking table. -/
  | ranking (total : Nat) (table : List (Cell × Nat × ℚ))
  /-- Lines 114, 136-151: the metric, the per-day table (absent when no date
  column resolves) and the summary table. -/
  | comparison (total : Nat) (evol : Option (List ((Cell × Cell) × Nat)))
      (resumen : List (Cell × Nat))
deriving DecidableEq

/-- The filtered record set `df` holds when line 109 is reached:
category filter (lines 95-96), date filter (99-102), operator filter
(106-107), each applied under the source's conditions. -/
def pipelineFiltered (fs : FilterState) (df0 : DF) (leg : Bool) : DF :=
  let df1 := if leg && df0.cols.contains "Tipo_Leg" then filterTipo fs df0 else df0
  let df2 := match resolveColF df0 with
    | some cf => dateStage fs df1 cf
    | none => df1
  if esFiltroActivo fs then filterUsuarios fs df2 (resolveColU df0) else df2

/-- The state of the caller's DataFrame object after the call: line 100
wrote the parsed date column into it unless the function returned at line 88,
or line 96 had already rebound `df` to a fresh filtered frame, or no date
column resolved. -/
def origAfterCall (_fs : FilterState) (df0 : DF) (leg : Bool) : DF :=
  if df0.rows.isEmpty then df0
  else if leg && df0.cols.contains "Tipo_Leg" then df0
  else match resolveColF df0 with
    | some cf => parseDates df0 cf
    | none => df0

/-- The outcome of `procesar_y_graficar` on a present DataFrame,
lines 86-151.  With the operator filter active, line 107 indexes `col_u`
before the emptiness check of line 109; with it inactive, line 120 indexes
`col_u` only after that check. -/
def procesarOutcome (fs : FilterState) (df0 : DF) (leg : Bool) : Outcome :=
  if df0.rows.isEmpty then .noData
  else
    let col_u := resolveColU df0
    let df3 := pipelineFiltered fs df0 leg
    if esFiltroActivo fs then
      if !(df0.cols.contains col_u) then .keyError col_u
      else if df3.rows.isEmpty then .emptyAfterFilter
      else
        .comparison df3.rows.length
          ((resolveColF df0).map (fun cf => evolTable df3.rows cf col_u))
          (value_counts df3.rows col_u)
    else
      if df3.rows.isEmpty then .emptyAfterFilter
      else if !(df0.cols.contains col_u) then .keyError col_u
      else .ranking df3.rows.length (rankingRows df3.rows col_u)

/-- `procesar_y_graficar(df, titulo, es_legalizacion)`: the rendered outcome
together with the post-call state of the caller's DataFrame object. -/
def procesar_y_graficar (fs : FilterState) (dfIn : Option DF) (leg : Bool) :
    Outcome × Option DF :=
  match dfIn with
  | none => (.noData, none)
  | some df0 => (procesarOutcome fs df0 leg, some (origAfterCall fs df0 leg))

/-- `st.session_state` after initialization (lines 44-49). -/
structure SessionState where
  df_ppl : Option DF
  df_convenios : Option DF
  df_rips : Option DF
  df_facturacion : Option DF
deriving DecidableEq

/-- Lines 160-161 / 164-165: copy the frame and set its `Tipo_Leg` column to
the source label. -/
def tagTipo (df : DF) (label : String) : DF :=
  ⟨if df.cols.contains "Tipo_Leg" then df.cols else df.cols ++ ["Tipo_Leg"],
   df.rows.map (fun r => setCell r "Tipo_Leg" (Cell.str label))⟩

/-- `pd.concat([a, b], ignore_index=True)`: rows of `a` then rows of `b`;
columns of `a` then the new columns of `b`. -/
def concatDF (a b : DF) : DF :=
  ⟨a.cols ++ b.cols.filter (fun c => !(a.cols.contains c)), a.rows ++ b.rows⟩

/-- Lines 158-166: the labeled copies collected into `list_leg`, in insertion
order (PPL first, then Convenios). -/
def list_leg (s : SessionState) : List DF :=
  (match s.df_ppl with | some d => [tagTipo d "PPL"] | none => []) ++
  (match s.df_convenios with | some d => [tagTipo d "Convenios"] | none => [])

/-- Lines 168-169: `pd.concat(list_leg)` when the list is non-empty. -/
def mergeLeg (s : SessionState) : Option DF :=
  match list_leg s with
  | [] => none
  | d :: ds => some (ds.foldl concatDF d)

/-- Whether an outcome is an uncaught exception. -/
def isKeyError : Outcome → Bool
  | .keyError _ => true
  | _ => false

/-- Lines 155-178: the three tab bodies run in script order; an uncaught
exception stops the script run, so later tabs are not processed.  The tabs
for RIPS and Facturación pass the stored frames directly, so the stored
frames take on the post-call object state; the Legalizaciones tab passes a
fresh merged frame built from copies, so it never touches the stored frames. -/
def runScript (fs : FilterState) (s : SessionState) : List Outcome × SessionState :=
  let oLeg := match mergeLeg s with
    | none => Outcome.sinDatosSync
    | some m => (procesar_y_graficar fs (some m) true).1
  if isKeyError oLeg then ([oLeg], s)
  else
    let rR := procesar_y_graficar fs s.df_rips false
    let s1 : SessionState := { s with df_rips := rR.2 }
    if isKeyError rR.1 then ([oLeg, rR.1], s1)
    else
      let rF := procesar_y_graficar fs s.df_facturacion false
      ([oLeg, rR.1, rF.1], { s1 with df_facturacion := rF.2 })

/-! ## Basic cell/row lemmas -/

theorem getCell_setCell_self (r : Row) (c : String) (v : Cell) :
    getCell (setCell r c v) c = v := by
  induction r with
  | nil => simp [setCell, getCell, List.lookup]
  | cons hd tl ih =>
      obtain ⟨c', v'⟩ := hd
      by_cases h : c' = c
      · subst h
        simp [setCell, getCell, List.lookup]
      · have hb : (c == c') = false := by
          simp only [beq_eq_false_iff_ne, ne_eq]
          exact fun hh => h hh.symm
        simpa [setCell, getCell, List.lookup, h, hb] using ih

theorem getCell_setCell_ne (r : Row) (c c' : String) (v : Cell) (h : c' ≠ c) :
    getCell (setCell r c v) c' = getCell r c' := by
  have hb : (c' == c) = false := by
    simp only [beq_eq_false_iff_ne, ne_eq]
    exact h
  induction r with
  | nil => simp [setCell, getCell, List.lookup, hb]
  | cons hd tl ih =>
      obtain ⟨c₀, v₀⟩ := hd
      by_cases h₀ : c₀ = c
      · subst h₀
        simp [setCell, getCell, List.lookup, hb]
      · cases hc : (c' == c₀)
        · simpa [setCell, getCell, List.lookup, h₀, hc] using ih
        · simp [setCell, getCell, List.lookup, h₀, hc]

/-! ## Claim C2: the date-filter stage -/

/-- Claim C2: with a resolved event-date column, the date stage keeps exactly
the records whose date value parses (unparsable values are dropped silently —
the stage is a total function, nothing fails) and whose parsed calendar date
`d` satisfies `start ≤ d ∧ d ≤ end`, both boundaries inclusive; kept records
merely get their date cell replaced by its parsed form. -/
theorem claim_C2 (fs : FilterState) (df : DF) (cf : String) :
    (dateStage fs df cf).rows = df.rows.filterMap (fun r =>
      match getCell r cf with
      | Cell.date d =>
          if fs.start_date ≤ d ∧ d ≤ fs.end_date
          then some (setCell r cf (Cell.date d)) else none
      | _ => none) := by
  show ((df.rows.map _).filter _).filter _ = _
  induction df.rows with
  | nil => rfl
  | cons r t ih =>
      simp only [List.map_cons, List.filter_cons, List.filterMap_cons]
      rcases hv : getCell r cf with s | d | _
      · simpa [getCell_setCell_self, toDatetime, hv] using ih
      · by_cases hd : fs.start_date ≤ d ∧ d ≤ fs.end_date
        · simpa [getCell_setCell_self, toDatetime, inRange, hv, hd.1, hd.2] using ih
        · have : ¬ (fs.start_date ≤ d ∧ d ≤ fs.end_date) := hd
          by_cases h1 : fs.start_date ≤ d
          · have h2 : ¬ d ≤ fs.end_date := fun h2 => hd ⟨h1, h2⟩
            simpa [getCell_setCell_self, toDatetime, inRange, hv, h1, h2, hd] using ih
          · simpa [getCell_setCell_self, toDatetime, inRange, hv, h1, hd] using ih
      · simpa [getCell_setCell_self, toDatetime, hv] using ih

/-! ## Claim C1: the operator-filter flag and the two aggregation variants -/

theorem resolveColU_contains (df : DF)
    (h : "USUARIO" ∈ df.cols ∨ "Usuario" ∈ df.cols) :
    df.cols.contains (resolveColU df) = true := by
  unfold resolveColU
  by_cases hu : "USUARIO" ∈ df.cols
  · simp [List.contains, hu]
  · rcases h with h | h
    · exact absurd h hu
    · simp [List.contains, hu, h]

/-- Claim C1: the operator-filter-active flag is true exactly when the
selected-operators list is non-empty and does not contain the sentinel
`'Todos'`; and on a dataset whose operator column resolves, whenever the
filtered set is non-empty the invocation produces exactly one aggregation
variant — the ranking variant when the flag is false, the time-series
comparison variant when it is true. -/
theorem claim_C1 (fs : FilterState) (df : DF) (leg : Bool)
    (hcu : "USUARIO" ∈ df.cols ∨ "Usuario" ∈ df.cols) :
    (esFiltroActivo fs = true ↔ ("Todos" ∉ fs.sel_usuarios ∧ fs.sel_usuarios ≠ [])) ∧
    (df.rows ≠ [] → (pipelineFiltered fs df leg).rows ≠ [] →
      ((esFiltroActivo fs = false ∧
          ∃ n t, procesarOutcome fs df leg = Outcome.ranking n t) ∨
       (esFiltroActivo fs = true ∧
          ∃ n e r, procesarOutcome fs df leg = Outcome.comparison n e r))) := by
  constructor
  · simp [esFiltroActivo, List.contains, List.length_pos, ne_eq]
  · intro h0 h3
    have hc : resolveColU df ∈ df.cols := by
      simpa [List.contains] using resolveColU_contains df hcu
    have h0' : df.rows.isEmpty = false := by simpa [List.isEmpty_iff] using h0
    have h3' : (pipelineFiltered fs df leg).rows.isEmpty = false := by
      simpa [List.isEmpty_iff] using h3
    by_cases hact : esFiltroActivo fs
    · right
      refine ⟨hact, ?_⟩
      have : procesarOutcome fs df leg =
          Outcome.comparison (pipelineFiltered fs df leg).rows.length
            ((resolveColF df).map
              (fun cf => evolTable (pipelineFiltered fs df leg).rows cf (resolveColU df)))
            (value_counts (pipelineFiltered fs df leg).rows (resolveColU df)) := by
        simp [procesarOutcome, h0', h3', hc, hact]
      exact ⟨_, _, _, this⟩
    · left
      refine ⟨by simpa using hact, ?_⟩
      have : procesarOutcome fs df leg =
          Outcome.ranking (pipelineFiltered fs df leg).rows.length
            (rankingRows (pipelineFiltered fs df leg).rows (resolveColU df)) := by
        simp [procesarOutcome, h0', h3', hc, hact]
      exact ⟨_, _, this⟩

/-- Witness for C1 at a concrete input: the sentinel selection `['Todos']`
leaves the flag inactive and a one-row dataset in range produces the ranking
variant. -/
theorem claim_C1_witness :
    esFiltroActivo ⟨["PPL", "Convenios"], ["Todos"], 0, 100⟩ = false ∧
    ∃ n t, procesarOutcome ⟨["PPL", "Convenios"], ["Todos"], 0, 100⟩
        ⟨["Usuario", "FECHA"], [[("Usuario", Cell.str "Ana"), ("FECHA", Cell.date 5)]]⟩ false
        = Outcome.ranking n t := by
  have h := (claim_C1 ⟨["PPL", "Convenios"], ["Todos"], 0, 100⟩
      ⟨["Usuario", "FECHA"], [[("Usuario", Cell.str "Ana"), ("FECHA", Cell.date 5)]]⟩ false
      (Or.inr (by decide))).2 (by decide) (by decide)
  rcases h with h | h
  · exact h
  · exact absurd h.1 (by decide)

/-! ## Claim C6: "no data loaded" versus "empty after filter" -/

/-- Claim C6: an absent dataset, and a present but empty dataset, both yield
the `noData` signal before any filtering (the stored frame is returned
untouched); a non-empty dataset whose rows are all eliminated by the filters
yields the distinct `emptyAfterFilter` signal (provided the operator-column
indexing of line 107 does not intervene); the two signals are distinct
constructors, and both are plain informational outcomes, not failures. -/
theorem claim_C6 (fs : FilterState) (df : DF) (leg : Bool) :
    ((procesar_y_graficar fs none leg).1 = Outcome.noData) ∧
    (df.rows = [] → procesar_y_graficar fs (some df) leg = (Outcome.noData, some df)) ∧
    (df.rows ≠ [] → (pipelineFiltered fs df leg).rows = [] →
      (esFiltroActivo fs = true → df.cols.contains (resolveColU df) = true) →
      (procesar_y_graficar fs (some df) leg).1 = Outcome.emptyAfterFilter) ∧
    Outcome.noData ≠ Outcome.emptyAfterFilter := by
  refine ⟨rfl, ?_, ?_, by simp⟩
  · intro h
    simp [procesar_y_graficar, procesarOutcome, origAfterCall, h]
  · intro h0 h3 hcu
    have h0' : df.rows.isEmpty = false := by simpa [List.isEmpty_iff] using h0
    have h3' : (pipelineFiltered fs df leg).rows.isEmpty = true := by
      simpa [List.isEmpty_iff] using h3
    by_cases hact : esFiltroActivo fs
    · have hc : resolveColU df ∈ df.cols := by
        simpa [List.contains] using hcu hact
      simp [procesar_y_graficar, procesarOutcome, h0', h3', hact, hc]
    · simp [procesar_y_graficar, procesarOutcome, h0', h3', hact]

/-- Witness for C6 at a concrete input: a one-row dataset whose only record
is dated outside the range is reported as `emptyAfterFilter`, not `noData`. -/
theorem claim_C6_witness :
    (procesar_y_graficar ⟨[], ["Todos"], 0, 10⟩
      (some ⟨["Usuario", "FECHA"], [[("Usuario", Cell.str "Ana"), ("FECHA", Cell.date 50)]]⟩)
      false).1 = Outcome.emptyAfterFilter := by
  exact (claim_C6 ⟨[], ["Todos"], 0, 10⟩
      ⟨["Usuario", "FECHA"], [[("Usuario", Cell.str "Ana"), ("FECHA", Cell.date 50)]]⟩
      false).2.2.1 (by decide) (by decide) (fun h => absurd h (by decide))

/-! ## Claim C5: merging the two labeled legalization datasets -/

/-- Claim C5: with both sources present, the merged frame exists and its rows
are exactly the PPL rows (each with `Tipo_Leg` set to `'PPL'`) followed by the
Convenios rows (each with `Tipo_Leg` set to `'Convenios'`): `m + n` rows in
total, per-source row order preserved by `map`, sources in insertion order of
`list_leg`, and every row's category cell reads its source's label. -/
theorem claim_C5 (s : SessionState) (dp dc : DF)
    (hp : s.df_ppl = some dp) (hc : s.df_convenios = some dc) :
    ∃ m : DF, mergeLeg s = some m ∧
      m.rows = dp.rows.map (fun r => setCell r "Tipo_Leg" (Cell.str "PPL")) ++
               dc.rows.map (fun r => setCell r "Tipo_Leg" (Cell.str "Convenios")) ∧
      m.rows.length = dp.rows.length + dc.rows.length ∧
      (∀ r : Row, getCell (setCell r "Tipo_Leg" (Cell.str "PPL")) "Tipo_Leg"
          = Cell.str "PPL") ∧
      (∀ r : Row, getCell (setCell r "Tipo_Leg" (Cell.str "Convenios")) "Tipo_Leg"
          = Cell.str "Convenios") := by
  refine ⟨concatDF (tagTipo dp "PPL") (tagTipo dc "Convenios"), ?_, ?_, ?_, ?_, ?_⟩
  · simp [mergeLeg, list_leg, hp, hc]
  · simp [concatDF, tagTipo]
  · simp [concatDF, tagTipo]
  · intro r
    exact getCell_setCell_self r "Tipo_Leg" (Cell.str "PPL")
  · intro r
    exact getCell_setCell_self r "Tipo_Leg" (Cell.str "Convenios")

/-- Witness for C5 at a concrete input: one PPL row and one Convenios row
merge into a two-row frame carrying their labels in source order. -/
theorem claim_C5_witness :
    ∃ m : DF, mergeLeg ⟨some ⟨["Usuario"], [[("Usuario", Cell.str "Ana")]]⟩,
        some ⟨["Usuario"], [[("Usuario", Cell.str "Beto")]]⟩, none, none⟩ = some m ∧
      m.rows = [[("Usuario", Cell.str "Ana")]].map
            (fun r => setCell r "Tipo_Leg" (Cell.str "PPL")) ++
          [[("Usuario", Cell.str "Beto")]].map
            (fun r => setCell r "Tipo_Leg" (Cell.str "Convenios")) ∧
      m.rows.length = [[("Usuario", Cell.str "Ana")]].length +
          [[("Usuario", Cell.str "Beto")]].length ∧
      (∀ r : Row, getCell (setCell r "Tipo_Leg" (Cell.str "PPL")) "Tipo_Leg"
          = Cell.str "PPL") ∧
      (∀ r : Row, getCell (setCell r "Tipo_Leg" (Cell.str "Convenios")) "Tipo_Leg"
          = Cell.str "Convenios") :=
  claim_C5 _ ⟨["Usuario"], [[("Usuario", Cell.str "Ana")]]⟩
    ⟨["Usuario"], [[("Usuario", Cell.str "Beto")]]⟩ rfl rfl

/-! ## Claim C7: start > end is silently tolerated -/

/-- Claim C7 (code evaluation at the failing input): with `start = 10 > 5 =
end` and a record dated 7, the pipeline performs no rejection, normalization
or error report — line 102 just filters every row out and the run ends in the
generic `emptyAfterFilter` warning of line 110. -/
theorem claim_C7_eval :
    (10 : Int) > 5 ∧
    (procesar_y_graficar ⟨[], ["Todos"], 10, 5⟩
        (some ⟨["Usuario", "FECHA"],
          [[("Usuario", Cell.str "Ana"), ("FECHA", Cell.date 7)]]⟩) false).1
      = Outcome.emptyAfterFilter := by
  exact ⟨by norm_num, by decide⟩

/-! ## Claim C8: a dataset with no operator column -/

/-- Counterexample to C8: a non-empty RIPS dataset whose only column is
`'OTRA'` (neither `'USUARIO'` nor `'Usuario'` exists) does not get a distinct
"cannot process" report: line 91 falls back to `'Usuario'` and line 120
raises an uncaught `KeyError`, and the script run stops there, so the
processable Facturación dataset is never processed (only two outcomes are
rendered). -/
theorem claim_C8_counterexample :
    (runScript ⟨[], ["Todos"], 0, 100⟩
        ⟨none, none,
         some ⟨["OTRA"], [[("OTRA", Cell.str "x")]]⟩,
         some ⟨["Usuario"], [[("Usuario", Cell.str "Ana")]]⟩⟩).1
      = [Outcome.sinDatosSync, Outcome.keyError "Usuario"] := by
  decide

/-- Claim C8 as amended: for every non-empty dataset in which neither
operator-column candidate exists, whenever execution reaches an operator
column access (the operator filter is active, or the filtered set is
non-empty), the call ends in an uncaught `KeyError` on `'Usuario'` — not a
distinct "cannot process" outcome — and, being an uncaught exception, it
aborts the script run so later datasets are not processed. -/
theorem claim_C8_amended (fs : FilterState) (df : DF) (leg : Bool)
    (h1 : "USUARIO" ∉ df.cols) (h2 : "Usuario" ∉ df.cols) (hne : df.rows ≠ [])
    (hreach : esFiltroActivo fs = true ∨ (pipelineFiltered fs df leg).rows ≠ []) :
    procesarOutcome fs df leg = Outcome.keyError "Usuario" := by
  have h0' : df.rows.isEmpty = false := by simpa [List.isEmpty_iff] using hne
  have hu : resolveColU df = "Usuario" := by
    simp [resolveColU, List.contains, h1]
  have hcu : df.cols.contains (resolveColU df) = false := by
    simp [hu, List.contains, h2]
  by_cases hact : esFiltroActivo fs
  · simp [procesarOutcome, h0', hact, hcu, hu, h2]
  · have h3 : (pipelineFiltered fs df leg).rows ≠ [] := by
      rcases hreach with h | h
      · exact absurd h hact
      · exact h
    have h3' : (pipelineFiltered fs df leg).rows.isEmpty = false := by
      simpa [List.isEmpty_iff] using h3
    simp [procesarOutcome, h0', h3', hact, hcu, hu, h2]

/-- Witness for the amended C8 at a concrete input. -/
theorem claim_C8_witness :
    procesarOutcome ⟨[], ["Todos"], 0, 100⟩ ⟨["OTRA"], [[("OTRA", Cell.str "x")]]⟩ false
      = Outcome.keyError "Usuario" :=
  claim_C8_amended ⟨[], ["Todos"], 0, 100⟩ ⟨["OTRA"], [[("OTRA", Cell.str "x")]]⟩ false
    (by decide) (by decide) (by decide) (Or.inr (by decide))

/-! ## Claim C9: in-place mutation of a stored dataset -/

/-- Counterexample to C9: a stored RIPS frame whose `FECHA` cell holds an
unparsable value is mutated by the call — line 100 writes the coerced column
(NaT for the unparsable value) back into the stored object, so after the view
computation the stored dataset's field values have changed. -/
theorem claim_C9_counterexample :
    (procesar_y_graficar ⟨[], ["Todos"], 0, 100⟩
        (some ⟨["Usuario", "FECHA"],
          [[("Usuario", Cell.str "Ana"), ("FECHA", Cell.str "garbage")]]⟩) false).2
      = some ⟨["Usuario", "FECHA"],
          [[("Usuario", Cell.str "Ana"), ("FECHA", Cell.null)]]⟩ ∧
    (some (⟨["Usuario", "FECHA"],
          [[("Usuario", Cell.str "Ana"), ("FECHA", Cell.null)]]⟩ : DF))
      ≠ some ⟨["Usuario", "FECHA"],
          [[("Usuario", Cell.str "Ana"), ("FECHA", Cell.str "garbage")]]⟩ := by
  exact ⟨by decide, by decide⟩

/-- Claim C9 as amended: a stored dataset passed directly to the view
computation (the RIPS and Facturación tabs) with a resolved event-date column
is mutated in place, but only in that column: its values are replaced by
their parse results (unparsable values become null) for every row, while
every other column's values are untouched; a call that returns at the
no-data check, legalization-filters first (the merged-copies path), or
resolves no date column leaves the caller's object unchanged; and the stored
PPL and Convenios frames are never touched by a script run. -/
theorem claim_C9_amended (fs : FilterState) (df : DF) (leg : Bool) (cf : String)
    (hne : df.rows ≠ []) (hleg : ¬ (leg = true ∧ "Tipo_Leg" ∈ df.cols))
    (hcf : resolveColF df = some cf) :
    (procesar_y_graficar fs (some df) leg).2 =
      some ⟨df.cols, df.rows.map (fun r => setCell r cf (toDatetime (getCell r cf)))⟩ ∧
    (∀ (r : Row) (c : String), c ≠ cf →
      getCell (setCell r cf (toDatetime (getCell r cf))) c = getCell r c) ∧
    (∀ (fs' : FilterState) (df' : DF) (leg' : Bool),
      df'.rows = [] ∨ (leg' = true ∧ "Tipo_Leg" ∈ df'.cols) ∨ resolveColF df' = none →
      (procesar_y_graficar fs' (some df') leg').2 = some df') ∧
    (∀ (fs' : FilterState) (s : SessionState),
      (runScript fs' s).2.df_ppl = s.df_ppl ∧
      (runScript fs' s).2.df_convenios = s.df_convenios) := by
  have h0' : df.rows.isEmpty = false := by simpa [List.isEmpty_iff] using hne
  have hlc : (leg && df.cols.contains "Tipo_Leg") = false := by
    cases leg
    · simp
    · simp only [Bool.true_and]
      have : ¬ "Tipo_Leg" ∈ df.cols := fun h => hleg ⟨rfl, h⟩
      simp [List.contains, this]
  have hmem : ¬ ("Tipo_Leg" ∈ df.cols ∧ leg = true) := fun hh => hleg ⟨hh.2, hh.1⟩
  refine ⟨?_, ?_, ?_, ?_⟩
  · by_cases hl : leg = true
    · have hm : "Tipo_Leg" ∉ df.cols := fun hm => hleg ⟨hl, hm⟩
      simp [procesar_y_graficar, origAfterCall, h0', hl, hm, hcf, parseDates]
    · simp [procesar_y_graficar, origAfterCall, h0', hl, hcf, parseDates]
  · intro r c hcne
    exact getCell_setCell_ne r cf c _ hcne
  · intro fs' df' leg' h
    rcases h with h | h | h
    · simp [procesar_y_graficar, origAfterCall, h]
    · simp [procesar_y_graficar, origAfterCall, h.1, h.2, ite_self]
    · simp [procesar_y_graficar, origAfterCall, h, ite_self]
  · intro fs' s
    unfold runScript
    dsimp only
    repeat' split
    all_goals exact ⟨rfl, rfl⟩

/-- Witness for the amended C9 at a concrete input: the stored frame comes
back with its `FECHA` column coerced. -/
theorem claim_C9_witness :
    (procesar_y_graficar ⟨[], ["Todos"], 0, 100⟩
        (some ⟨["Usuario", "FECHA"],
          [[("Usuario", Cell.str "Ana"), ("FECHA", Cell.str "garbage")]]⟩) false).2 =
      some ⟨["Usuario", "FECHA"],
        [[("Usuario", Cell.str "Ana"), ("FECHA", Cell.str "garbage")]].map
          (fun r => setCell r "FECHA" (toDatetime (getCell r "FECHA")))⟩ :=
  (claim_C9_amended ⟨[], ["Todos"], 0, 100⟩
    ⟨["Usuario", "FECHA"], [[("Usuario", Cell.str "Ana"), ("FECHA", Cell.str "garbage")]]⟩
    false "FECHA" (by decide) (by decide) (by decide)).1

/-! ## Permutation, first-appearance and counting lemmas -/

theorem insertStable_cons_pos {α : Type} (le : α → α → Bool) (x h : α) (t : List α)
    (hc : le x h = true) : insertStable le x (h :: t) = x :: h :: t := by
  simp [insertStable, hc]

theorem insertStable_cons_neg {α : Type} (le : α → α → Bool) (x h : α) (t : List α)
    (hc : le x h = false) : insertStable le x (h :: t) = h :: insertStable le x t := by
  simp [insertStable, hc]

theorem mem_insertStable {α : Type} (le : α → α → Bool) (x y : α) (l : List α) :
    y ∈ insertStable le x l ↔ y = x ∨ y ∈ l := by
  induction l with
  | nil => simp [insertStable]
  | cons h t ih =>
      cases hc : le x h
      · rw [insertStable_cons_neg le x h t hc]
        constructor
        · intro hm
          rcases List.mem_cons.mp hm with rfl | hm2
          · exact Or.inr (List.mem_cons_self _ _)
          · rcases ih.mp hm2 with rfl | h3
            · exact Or.inl rfl
            · exact Or.inr (List.mem_cons_of_mem _ h3)
        · intro hm
          rcases hm with rfl | hm2
          · exact List.mem_cons_of_mem _ (ih.mpr (Or.inl rfl))
          · rcases List.mem_cons.mp hm2 with rfl | h3
            · exact List.mem_cons_self _ _
            · exact List.mem_cons_of_mem _ (ih.mpr (Or.inr h3))
      · rw [insertStable_cons_pos le x h t hc]
        exact List.mem_cons

theorem insertStable_perm {α : Type} (le : α → α → Bool) (x : α) (l : List α) :
    List.Perm (insertStable le x l) (x :: l) := by
  induction l with
  | nil => exact List.Perm.refl _
  | cons h t ih =>
      cases hc : le x h
      · rw [insertStable_cons_neg le x h t hc]
        exact (ih.cons h).trans (List.Perm.swap x h t)
      · rw [insertStable_cons_pos le x h t hc]

theorem isort_perm {α : Type} (le : α → α → Bool) (l : List α) :
    List.Perm (isort le l) l := by
  induction l with
  | nil => exact List.Perm.refl _
  | cons h t ih => exact (insertStable_perm le h (isort le t)).trans (ih.cons h)

theorem mem_firstAppearance {α : Type} [DecidableEq α] {y : α} {l : List α} :
    y ∈ firstAppearance l ↔ y ∈ l := by
  induction l with
  | nil => simp [firstAppearance]
  | cons v t ih =>
      by_cases hy : y = v
      · subst hy
        simp [firstAppearance]
      · simp [firstAppearance, List.mem_filter, ih, hy]

theorem nodup_firstAppearance {α : Type} [DecidableEq α] (l : List α) :
    (firstAppearance l).Nodup := by
  induction l with
  | nil => simp [firstAppearance]
  | cons v t ih =>
      simp only [firstAppearance, List.nodup_cons]
      refine ⟨?_, ih.filter _⟩
      simp [List.mem_filter]

theorem sum_map_split {α : Type} [DecidableEq α] (f : α → ℕ) (v : α) :
    ∀ l : List α, l.Nodup →
      (l.map f).sum = (if v ∈ l then f v else 0) +
        ((l.filter (fun x => !(x == v))).map f).sum := by
  intro l
  induction l with
  | nil => simp
  | cons a t ih =>
      intro hnd
      have ha : a ∉ t := (List.nodup_cons.mp hnd).1
      have hnd' : t.Nodup := (List.nodup_cons.mp hnd).2
      by_cases hav : a = v
      · subst hav
        have ht : t.filter (fun x => !(x == a)) = t := by
          apply List.filter_eq_self.mpr
          intro x hx
          simp only [Bool.not_eq_true', beq_eq_false_iff_ne, ne_eq]
          exact fun h => ha (h ▸ hx)
        simp [List.filter_cons, ht]
      · have hb : (!(a == v)) = true := by simp [hav]
        have hva : ¬ v = a := fun h => hav h.symm
        have hvm : (v ∈ a :: t) ↔ v ∈ t := by
          simp [List.mem_cons, hva]
        rw [List.map_cons, List.sum_cons, ih hnd', List.filter_cons, hb]
        rw [if_pos rfl, List.map_cons, List.sum_cons]
        by_cases hvt : v ∈ t
        · simp only [hvm, hvt, if_true]
          omega
        · simp only [hvm, hvt, if_false]
          omega

theorem sum_count_firstAppearance {α : Type} [DecidableEq α] (l : List α) :
    ((firstAppearance l).map (fun v => l.count v)).sum = l.length := by
  induction l with
  | nil => simp [firstAppearance]
  | cons v t ih =>
      simp only [firstAppearance, List.map_cons, List.sum_cons]
      have hcong : ((firstAppearance t).filter (fun x => !(x == v))).map
            (fun u => (v :: t).count u)
          = ((firstAppearance t).filter (fun x => !(x == v))).map (fun u => t.count u) := by
        apply List.map_congr_left
        intro u hu
        have hne : u ≠ v := by
          have := (List.mem_filter.mp hu).2
          simpa [Bool.not_eq_true', beq_eq_false_iff_ne] using this
        exact List.count_cons_of_ne hne t
      rw [hcong, List.count_cons_self]
      have hsplit := sum_map_split (fun u => t.count u) v (firstAppearance t)
        (nodup_firstAppearance t)
      rw [ih] at hsplit
      beta_reduce at hsplit
      by_cases hv : v ∈ t
      · have hvfa : v ∈ firstAppearance t := mem_firstAppearance.mpr hv
        rw [if_pos hvfa] at hsplit
        simp only [List.length_cons]
        omega
      · have hvfa : v ∉ firstAppearance t := fun h => hv (mem_firstAppearance.mp h)
        have hc0 : t.count v = 0 := List.count_eq_zero_of_not_mem hv
        rw [if_neg hvfa] at hsplit
        simp only [List.length_cons]
        omega

/-! ## Sortedness and stability of the count-descending sort -/

theorem pairwise_insertStable_leCount (x : Cell × Nat) (l : List (Cell × Nat))
    (h : l.Pairwise (fun a b => b.2 ≤ a.2)) :
    (insertStable leCount x l).Pairwise (fun a b => b.2 ≤ a.2) := by
  induction l with
  | nil => simp [insertStable]
  | cons hd t ih =>
      rcases List.pairwise_cons.mp h with ⟨hhd, ht⟩
      by_cases hc : leCount x hd
      · have hxh : hd.2 ≤ x.2 := by simpa [leCount] using hc
        simp only [insertStable, hc, if_true]
        refine List.pairwise_cons.mpr ⟨?_, h⟩
        intro b hb
        rcases List.mem_cons.mp hb with rfl | hbt
        · exact hxh
        · exact le_trans (hhd b hbt) hxh
      · have hxh : x.2 ≤ hd.2 := by
          have : ¬ hd.2 ≤ x.2 := by simpa [leCount] using hc
          omega
        simp only [insertStable, hc, if_false]
        refine List.pairwise_cons.mpr ⟨?_, ih ht⟩
        intro b hb
        rcases (mem_insertStable leCount x b t).mp hb with rfl | hbt
        · exact hxh
        · exact hhd b hbt

theorem pairwise_isort_leCount (l : List (Cell × Nat)) :
    (isort leCount l).Pairwise (fun a b => b.2 ≤ a.2) := by
  induction l with
  | nil => simp [isort]
  | cons hd t ih => exact pairwise_insertStable_leCount hd _ ih

theorem insertStable_filter_count (x : Cell × Nat) (l : List (Cell × Nat)) (k : Nat) :
    (insertStable leCount x l).filter (fun y => y.2 == k) =
      (if x.2 = k then x :: l.filter (fun y => y.2 == k)
       else l.filter (fun y => y.2 == k)) := by
  induction l with
  | nil =>
      by_cases hx : x.2 = k <;> simp [insertStable, List.filter_cons, hx]
  | cons hd t ih =>
      by_cases hc : leCount x hd
      · simp only [insertStable, hc, if_true]
        by_cases hx : x.2 = k <;> simp [List.filter_cons, hx]
      · have hlt : x.2 < hd.2 := by
          have : ¬ hd.2 ≤ x.2 := by simpa [leCount] using hc
          omega
        simp only [insertStable, hc, if_false]
        by_cases hh : hd.2 = k
        · have hx : ¬ x.2 = k := by omega
          simp [List.filter_cons, hh, hx, ih]
        · simp [List.filter_cons, hh, ih]

theorem isort_filter_count (l : List (Cell × Nat)) (k : Nat) :
    (isort leCount l).filter (fun y => y.2 == k) = l.filter (fun y => y.2 == k) := by
  induction l with
  | nil => rfl
  | cons hd t ih =>
      show (insertStable leCount hd (isort leCount t)).filter _ = _
      rw [insertStable_filter_count]
      by_cases hh : hd.2 = k <;> simp [List.filter_cons, hh, ih]

/-! ## Claim C4: ranking order -/

/-- Counterexample to C4: on operators `Zed` then `Ana`, each with count 1,
`value_counts` (which orders the ranking rows at lines 120-121) lists `Zed`
first although `"Ana" < "Zed"`, so equal counts are NOT ordered by operator
name ascending. -/
theorem claim_C4_counterexample :
    value_counts [[("Usuario", Cell.str "Zed")], [("Usuario", Cell.str "Ana")]] "Usuario"
      = [(Cell.str "Zed", 1), (Cell.str "Ana", 1)] ∧
    ("Ana" : String) < "Zed" := by
  refine ⟨by decide, ?_⟩
  rw [String.lt_iff_toList_lt]
  decide

/-- Claim C4 as amended: the per-operator ranking rows are sorted by count
descending, and any two operators with equal counts appear in the order of
their first appearance in the filtered data (the hash-table key order that
`value_counts` sorts stably), not by operator name. -/
theorem claim_C4_amended (rows : List Row) (cu : String) :
    (value_counts rows cu).Pairwise (fun a b => b.2 ≤ a.2) ∧
    (∀ a b : Cell × Nat, List.Sublist [a, b] (value_counts rows cu) → a.2 = b.2 →
      List.Sublist [a.1, b.1] (firstAppearance (opVals rows cu))) := by
  constructor
  · exact pairwise_isort_leCount _
  · intro a b hsub heq
    have h1 : List.Sublist [a, b] ((value_counts rows cu).filter (fun y => y.2 == a.2)) := by
      have h := hsub.filter (fun y => y.2 == a.2)
      simpa [List.filter_cons, heq.symm] using h
    have h2 : (value_counts rows cu).filter (fun y => y.2 == a.2)
        = ((firstAppearance (opVals rows cu)).map
            (fun v => (v, (opVals rows cu).count v))).filter (fun y => y.2 == a.2) :=
      isort_filter_count _ _
    rw [h2] at h1
    have h3 : List.Sublist [a, b] ((firstAppearance (opVals rows cu)).map
        (fun v => (v, (opVals rows cu).count v))) :=
      h1.trans (List.filter_sublist _)
    have h5 : ((firstAppearance (opVals rows cu)).map
        (fun v => (v, (opVals rows cu).count v))).map (fun y => y.1)
        = firstAppearance (opVals rows cu) := by
      rw [List.map_map]
      have hid : ∀ c ∈ firstAppearance (opVals rows cu),
          ((fun y : Cell × Nat => y.1) ∘ (fun v => (v, (opVals rows cu).count v))) c = c :=
        fun c _ => rfl
      rw [List.map_congr_left hid]
      simp
    have h4 := h3.map (fun y => y.1)
    rw [h5] at h4
    simpa using h4

/-- Witness for the amended C4 at a concrete input: the tied pair
`(Zed, 1), (Ana, 1)` of the counterexample indeed appears in first-appearance
order. -/
theorem claim_C4_witness :
    List.Sublist [Cell.str "Zed", Cell.str "Ana"]
      (firstAppearance (opVals [[("Usuario", Cell.str "Zed")],
        [("Usuario", Cell.str "Ana")]] "Usuario")) := by
  have hvc : value_counts [[("Usuario", Cell.str "Zed")],
      [("Usuario", Cell.str "Ana")]] "Usuario"
      = [(Cell.str "Zed", 1), (Cell.str "Ana", 1)] := by decide
  exact (claim_C4_amended [[("Usuario", Cell.str "Zed")],
      [("Usuario", Cell.str "Ana")]] "Usuario").2
    (Cell.str "Zed", 1) (Cell.str "Ana", 1)
    (by rw [hvc]) rfl

/-! ## Claim C3: percentages -/

theorem sum_counts_value_counts (rows : List Row) (cu : String) :
    ((value_counts rows cu).map (fun p => p.2)).sum = (opVals rows cu).length := by
  have hperm := (isort_perm leCount ((firstAppearance (opVals rows cu)).map
      (fun v => (v, (opVals rows cu).count v)))).map (fun p : Cell × Nat => p.2)
  have h1 : ((value_counts rows cu).map (fun p => p.2)).sum
      = (((firstAppearance (opVals rows cu)).map
          (fun v => (v, (opVals rows cu).count v))).map (fun p : Cell × Nat => p.2)).sum :=
    hperm.sum_eq
  rw [h1, List.map_map]
  have hcong : ∀ v ∈ firstAppearance (opVals rows cu),
      ((fun p : Cell × Nat => p.2) ∘ (fun v => (v, (opVals rows cu).count v))) v
        = (opVals rows cu).count v := fun v _ => rfl
  rw [List.map_congr_left hcong]
  exact sum_count_firstAppearance _

theorem round2_err (x : ℚ) : |round2 x - x| ≤ 1 / 200 := by
  have h := abs_sub_round (100 * x)
  have heq : round2 x - x = -((100 * x - ((round (100 * x) : ℤ) : ℚ)) / 100) := by
    rw [round2]
    ring
  rw [heq, abs_neg, abs_div]
  have h100 : |(100 : ℚ)| = 100 := by norm_num
  rw [h100]
  linarith

theorem abs_list_sum_le (l : List ℚ) (c : ℚ) (h : ∀ x ∈ l, |x| ≤ c) :
    |l.sum| ≤ l.length * c := by
  induction l with
  | nil => simp
  | cons a t ih =>
      simp only [List.sum_cons, List.length_cons]
      have h1 : |a + t.sum| ≤ |a| + |t.sum| := abs_add _ _
      have h2 : |t.sum| ≤ t.length * c := ih (fun x hx => h x (List.mem_cons_of_mem _ hx))
      have h3 : |a| ≤ c := h a (List.mem_cons_self _ _)
      push_cast
      linarith

theorem list_sum_map_sub (l : List (Cell × Nat)) (f g : Cell × Nat → ℚ) :
    (l.map f).sum - (l.map g).sum = (l.map (fun x => f x - g x)).sum := by
  induction l with
  | nil => simp
  | cons a t ih =>
      simp only [List.map_cons, List.sum_cons]
      rw [← ih]
      ring

theorem list_sum_map_mul_right (l : List (Cell × Nat)) (f : Cell × Nat → ℚ) (k : ℚ) :
    (l.map (fun x => f x * k)).sum = (l.map f).sum * k := by
  induction l with
  | nil => simp
  | cons a t ih => simp [ih, add_mul]

/-- Counterexample to C3: on a two-record filtered set whose second record has
a null operator value, the single ranking row shows 100% for `Ana` (the code
divides by `counts.sum() = 1`, the non-null count), while the claim's formula
— count divided by the total filtered count 2 — gives 50%. -/
theorem claim_C3_counterexample :
    (pipelineFiltered ⟨[], ["Todos"], 0, 100⟩
        ⟨["Usuario"], [[("Usuario", Cell.str "Ana")], [("Usuario", Cell.null)]]⟩
        false).rows.length = 2 ∧
    rankingRows [[("Usuario", Cell.str "Ana")], [("Usuario", Cell.null)]] "Usuario"
      = [(Cell.str "Ana", 1, 100)] ∧
    round2 (100 * ((1 : ℚ) / 2)) = 50 ∧
    (100 : ℚ) ≠ 50 := by
  refine ⟨by decide, ?_, by norm_num [round2, round_eq], by norm_num⟩
  have hvc : value_counts [[("Usuario", Cell.str "Ana")], [("Usuario", Cell.null)]] "Usuario"
      = [(Cell.str "Ana", 1)] := by decide
  rw [show rankingRows [[("Usuario", Cell.str "Ana")], [("Usuario", Cell.null)]] "Usuario"
      = (value_counts [[("Usuario", Cell.str "Ana")], [("Usuario", Cell.null)]]
          "Usuario").map (fun p => (p.1, p.2,
            round2 ((p.2 : ℚ) / (((value_counts [[("Usuario", Cell.str "Ana")],
              [("Usuario", Cell.null)]] "Usuario").map (fun p => p.2)).sum : ℕ) * 100)))
      from rfl]
  rw [hvc]
  norm_num [round2, round_eq]

/-- Claim C3 as amended: in ranking mode the denominator is the count of
filtered records with a NON-NULL operator value (`counts.sum()` after
`value_counts` dropped nulls), which equals the total filtered count only
when every record has an operator; each row's percentage is that quotient
times 100, rounded to 2 decimals, and the percentages sum to 100 within
0.01 × (number of operators) (indeed within 0.005 × that number). -/
theorem claim_C3_amended (rows : List Row) (cu : String) (hne : opVals rows cu ≠ []) :
    ((value_counts rows cu).map (fun p => p.2)).sum = (opVals rows cu).length ∧
    (∀ p ∈ rankingRows rows cu,
      p.2.2 = round2 (100 * ((p.2.1 : ℚ) / ((opVals rows cu).length : ℚ)))) ∧
    |((rankingRows rows cu).map (fun p => p.2.2)).sum - 100|
      ≤ ((rankingRows rows cu).length : ℚ) * (1 / 100) := by
  have hsum := sum_counts_value_counts rows cu
  have hL0 : (0 : ℚ) < ((opVals rows cu).length : ℚ) := by
    have : 0 < (opVals rows cu).length := List.length_pos.mpr hne
    exact_mod_cast this
  have hLne : ((opVals rows cu).length : ℚ) ≠ 0 := ne_of_gt hL0
  have hrr : rankingRows rows cu = (value_counts rows cu).map
      (fun q => (q.1, q.2,
        round2 ((q.2 : ℚ) / ((opVals rows cu).length : ℚ) * 100))) := by
    simp only [rankingRows]
    rw [hsum]
  refine ⟨hsum, ?_, ?_⟩
  · rw [hrr]
    intro p hp
    rcases List.mem_map.mp hp with ⟨q, hq, rfl⟩
    show round2 _ = round2 _
    congr 1
    ring
  · rw [hrr, List.map_map, List.length_map]
    have hcong : ∀ q ∈ value_counts rows cu,
        ((fun p : Cell × Nat × ℚ => p.2.2) ∘ (fun q : Cell × Nat =>
          (q.1, q.2, round2 ((q.2 : ℚ) / ((opVals rows cu).length : ℚ) * 100)))) q
        = round2 ((q.2 : ℚ) / ((opVals rows cu).length : ℚ) * 100) := fun q _ => rfl
    rw [List.map_congr_left hcong]
    have hcomp : ((value_counts rows cu).map (fun p => p.2)).map (fun n : ℕ => (n : ℚ))
        = (value_counts rows cu).map (fun q : Cell × Nat => (q.2 : ℚ)) := by
      rw [List.map_map]
      exact List.map_congr_left (fun q _ => rfl)
    have hcast : ((value_counts rows cu).map (fun q : Cell × Nat => (q.2 : ℚ))).sum
        = ((opVals rows cu).length : ℚ) := by
      rw [← hcomp, ← Nat.cast_list_sum, hsum]
    have hE : ((value_counts rows cu).map (fun q : Cell × Nat =>
        (q.2 : ℚ) / ((opVals rows cu).length : ℚ) * 100)).sum = 100 := by
      have hfeq : ∀ q ∈ value_counts rows cu,
          (q.2 : ℚ) / ((opVals rows cu).length : ℚ) * 100
          = (q.2 : ℚ) * (100 / ((opVals rows cu).length : ℚ)) := by
        intro q _
        ring
      rw [List.map_congr_left hfeq, list_sum_map_mul_right, hcast]
      field_simp
    have hsub := list_sum_map_sub (value_counts rows cu)
      (fun q => round2 ((q.2 : ℚ) / ((opVals rows cu).length : ℚ) * 100))
      (fun q => (q.2 : ℚ) / ((opVals rows cu).length : ℚ) * 100)
    have hdiff : ((value_counts rows cu).map (fun q : Cell × Nat =>
          round2 ((q.2 : ℚ) / ((opVals rows cu).length : ℚ) * 100))).sum - 100
        = ((value_counts rows cu).map (fun q : Cell × Nat =>
            round2 ((q.2 : ℚ) / ((opVals rows cu).length : ℚ) * 100)
            - (q.2 : ℚ) / ((opVals rows cu).length : ℚ) * 100)).sum := by
      calc ((value_counts rows cu).map (fun q : Cell × Nat =>
              round2 ((q.2 : ℚ) / ((opVals rows cu).length : ℚ) * 100))).sum - 100
          = ((value_counts rows cu).map (fun q : Cell × Nat =>
              round2 ((q.2 : ℚ) / ((opVals rows cu).length : ℚ) * 100))).sum
            - ((value_counts rows cu).map (fun q : Cell × Nat =>
              (q.2 : ℚ) / ((opVals rows cu).length : ℚ) * 100)).sum := by rw [hE]
        _ = _ := hsub
    rw [hdiff]
    have hbound := abs_list_sum_le ((value_counts rows cu).map (fun q : Cell × Nat =>
        round2 ((q.2 : ℚ) / ((opVals rows cu).length : ℚ) * 100)
        - (q.2 : ℚ) / ((opVals rows cu).length : ℚ) * 100)) (1 / 200) ?hptw
    case hptw =>
      intro x hx
      rcases List.mem_map.mp hx with ⟨q, hq, rfl⟩
      exact round2_err _
    rw [List.length_map] at hbound
    have hmono : ((value_counts rows cu).length : ℚ) * (1 / 200)
        ≤ ((value_counts rows cu).length : ℚ) * (1 / 100) := by
      have : (0 : ℚ) ≤ ((value_counts rows cu).length : ℚ) := by positivity
      nlinarith
    exact le_trans hbound hmono

/-- Witness for the amended C3 at a concrete input: two operators with one
record each; the rounded percentages sum to 100 within the tolerance. -/
theorem claim_C3_witness :
    |((rankingRows [[("Usuario", Cell.str "Ana")], [("Usuario", Cell.str "Beto")]]
        "Usuario").map (fun p => p.2.2)).sum - 100|
      ≤ ((rankingRows [[("Usuario", Cell.str "Ana")], [("Usuario", Cell.str "Beto")]]
          "Usuario").length : ℚ) * (1 / 100) :=
  (claim_C3_amended [[("Usuario", Cell.str "Ana")], [("Usuario", Cell.str "Beto")]]
    "Usuario" (by decide)).2.2

/-! ## Claim C10: comparison-mode summary versus time series -/

theorem firstAppearance_filter {α : Type} [DecidableEq α] (p : α → Bool) (l : List α) :
    firstAppearance (l.filter p) = (firstAppearance l).filter p := by
  induction l with
  | nil => rfl
  | cons v t ih =>
      by_cases hv : p v
      · rw [List.filter_cons, if_pos hv]
        show v :: (firstAppearance (t.filter p)).filter (fun x => !(x == v)) = _
        rw [ih]
        show _ = (v :: (firstAppearance t).filter (fun x => !(x == v))).filter p
        rw [List.filter_cons, if_pos hv]
        congr 1
        rw [List.filter_filter, List.filter_filter]
        apply List.filter_congr
        intro x _
        exact Bool.and_comm _ _
      · rw [List.filter_cons, if_neg hv]
        rw [ih]
        show _ = (v :: (firstAppearance t).filter (fun x => !(x == v))).filter p
        rw [List.filter_cons, if_neg hv, List.filter_filter]
        apply List.filter_congr
        intro x _
        cases hx : p x
        · simp
        · have hxv : (x == v) = false := by
            have : x ≠ v := fun hh => by
              rw [hh] at hx
              exact hv (by rw [hx])
            simpa using this
          simp [hxv]

theorem sum_count_class {α : Type} [DecidableEq α] (l : List α) (q : α → Bool) :
    (((firstAppearance l).filter q).map (fun k => l.count k)).sum = l.countP q := by
  rw [← firstAppearance_filter]
  have hcong : ∀ k ∈ firstAppearance (l.filter q),
      l.count k = (l.filter q).count k := by
    intro k hk
    have hkq : q k = true := (List.mem_filter.mp (mem_firstAppearance.mp hk)).2
    exact (List.count_filter hkq).symm
  rw [List.map_congr_left hcong, sum_count_firstAppearance, List.countP_eq_length_filter]

theorem count_opVals_eq_countP_evolPairs (rows : List Row) (cf cu : String)
    (hdate : ∀ r ∈ rows, isDate (getCell r cf) = true) (v : Cell) :
    (opVals rows cu).count v = (evolPairs rows cf cu).countP (fun e => e.2 == v) := by
  induction rows with
  | nil => rfl
  | cons r t ih =>
      have hdr : isDate (getCell r cf) = true := hdate r (List.mem_cons_self _ _)
      have hdt : ∀ r' ∈ t, isDate (getCell r' cf) = true :=
        fun r' h => hdate r' (List.mem_cons_of_mem _ h)
      have hdd : (getCell r cf == Cell.null) = false := by
        rcases hcf : getCell r cf with s | d | _
        · rw [hcf] at hdr
          exact absurd hdr (by simp [isDate])
        · simp
        · rw [hcf] at hdr
          exact absurd hdr (by simp [isDate])
      have ih' := ih hdt
      simp only [opVals, evolPairs, List.map_cons, List.filter_cons] at ih' ⊢
      cases hnull : (getCell r cu == Cell.null)
      · simp [hdd, hnull, List.count_cons, List.countP_cons, ih']
      · simp [hdd, hnull, ih']

theorem pipelineFiltered_isDate (fs : FilterState) (df : DF) (leg : Bool) (cf : String)
    (hcf : resolveColF df = some cf) :
    ∀ r ∈ (pipelineFiltered fs df leg).rows, isDate (getCell r cf) = true := by
  intro r hr
  simp only [pipelineFiltered, hcf] at hr
  have hr2 : r ∈ (dateStage fs
      (if leg && df.cols.contains "Tipo_Leg" then filterTipo fs df else df) cf).rows := by
    by_cases hact : esFiltroActivo fs
    · rw [if_pos hact] at hr
      simp only [filterUsuarios] at hr
      exact (List.mem_filter.mp hr).1
    · rw [if_neg hact] at hr
      exact hr
  simp only [dateStage, rangeFilter] at hr2
  have hin : inRange fs (getCell r cf) = true := by
    have := (List.mem_filter.mp hr2).2
    simpa using this
  rcases hc : getCell r cf with s | d | _
  · rw [hc] at hin
    exact absurd hin (by simp [inRange])
  · rfl
  · rw [hc] at hin
    exact absurd hin (by simp [inRange])

theorem resumen_entry_eq_evol_sum (rows : List Row) (cf cu : String)
    (hdate : ∀ r ∈ rows, isDate (getCell r cf) = true)
    (p : Cell × Nat) (hp : p ∈ value_counts rows cu) :
    p.2 = (((evolTable rows cf cu).filter (fun e => e.1.2 == p.1)).map
        (fun e => e.2)).sum := by
  have hp2 : p ∈ (firstAppearance (opVals rows cu)).map
      (fun v => (v, (opVals rows cu).count v)) := ((isort_perm _ _).mem_iff).mp hp
  rcases List.mem_map.mp hp2 with ⟨v, hv, rfl⟩
  show (opVals rows cu).count v = _
  have hfm : (evolTable rows cf cu).filter (fun e => e.1.2 == v)
      = ((isort pairLe (firstAppearance (evolPairs rows cf cu))).filter
          (fun k => k.2 == v)).map (fun k => (k, countEq (evolPairs rows cf cu) k)) := by
    show (List.map _ _).filter _ = _
    rw [List.filter_map]
    congr 1
  rw [hfm, List.map_map]
  have hcong : ∀ k ∈ (isort pairLe (firstAppearance (evolPairs rows cf cu))).filter
      (fun k => k.2 == v),
      ((fun e : (Cell × Cell) × Nat => e.2)
        ∘ (fun k => (k, countEq (evolPairs rows cf cu) k))) k
        = countEq (evolPairs rows cf cu) k := fun k _ => rfl
  rw [List.map_congr_left hcong]
  have hperm : List.Perm
      ((isort pairLe (firstAppearance (evolPairs rows cf cu))).filter (fun k => k.2 == v))
      ((firstAppearance (evolPairs rows cf cu)).filter (fun k => k.2 == v)) :=
    (isort_perm _ _).filter _
  rw [(hperm.map (fun k => countEq (evolPairs rows cf cu) k)).sum_eq]
  simp only [countEq]
  rw [sum_count_class]
  exact count_opVals_eq_countP_evolPairs rows cf cu hdate v

/-- Claim C10: in comparison mode on a dataset with a resolved event-date
column, the rendered per-day table and summary are computed from the same
filtered record set, and each operator summary total equals the sum of that
operator entries in the per-day table. -/
theorem claim_C10 (fs : FilterState) (df : DF) (leg : Bool) (cf : String)
    (hcf : resolveColF df = some cf)
    (n : Nat) (ev : Option (List ((Cell × Cell) × Nat))) (res : List (Cell × Nat))
    (hout : procesarOutcome fs df leg = Outcome.comparison n ev res) :
    ev = some (evolTable (pipelineFiltered fs df leg).rows cf (resolveColU df)) ∧
    res = value_counts (pipelineFiltered fs df leg).rows (resolveColU df) ∧
    (∀ p ∈ res, p.2 =
      (((evolTable (pipelineFiltered fs df leg).rows cf (resolveColU df)).filter
        (fun e => e.1.2 == p.1)).map (fun e => e.2)).sum) := by
  simp only [procesarOutcome] at hout
  by_cases h0 : df.rows.isEmpty
  · rw [if_pos h0] at hout
    exact absurd hout (by simp)
  · rw [if_neg h0] at hout
    by_cases hact : esFiltroActivo fs
    · rw [if_pos hact] at hout
      by_cases hcu : !(df.cols.contains (resolveColU df))
      · rw [if_pos hcu] at hout
        exact absurd hout (by simp)
      · rw [if_neg hcu] at hout
        by_cases h3 : (pipelineFiltered fs df leg).rows.isEmpty
        · rw [if_pos h3] at hout
          exact absurd hout (by simp)
        · rw [if_neg h3] at hout
          injection hout with hn hev hres
          refine ⟨?_, hres.symm, ?_⟩
          · rw [← hev, hcf]
            rfl
          · intro p hp
            rw [← hres] at hp
            exact resumen_entry_eq_evol_sum _ cf _
              (pipelineFiltered_isDate fs df leg cf hcf) p hp
    · rw [if_neg hact] at hout
      by_cases h3 : (pipelineFiltered fs df leg).rows.isEmpty
      · rw [if_pos h3] at hout
        exact absurd hout (by simp)
      · rw [if_neg h3] at hout
        by_cases hcu : !(df.cols.contains (resolveColU df))
        · rw [if_pos hcu] at hout
          exact absurd hout (by simp)
        · rw [if_neg hcu] at hout
          exact absurd hout (by simp)

/-- Witness for C10 at a concrete input: `Ana` filtered over two days has
summary total 2, equal to the sum of her two per-day counts. -/
theorem claim_C10_witness :
    ((Cell.str "Ana", 2) : Cell × Nat).2 =
      (((evolTable (pipelineFiltered ⟨[], ["Ana"], 0, 100⟩
          ⟨["Usuario", "FECHA"],
            [[("Usuario", Cell.str "Ana"), ("FECHA", Cell.date 5)],
             [("Usuario", Cell.str "Beto"), ("FECHA", Cell.date 5)],
             [("Usuario", Cell.str "Ana"), ("FECHA", Cell.date 6)]]⟩ false).rows
          "FECHA" (resolveColU ⟨["Usuario", "FECHA"],
            [[("Usuario", Cell.str "Ana"), ("FECHA", Cell.date 5)],
             [("Usuario", Cell.str "Beto"), ("FECHA", Cell.date 5)],
             [("Usuario", Cell.str "Ana"), ("FECHA", Cell.date 6)]]⟩)).filter
        (fun e => e.1.2 == (Cell.str "Ana"))).map (fun e => e.2)).sum := by
  exact (claim_C10 ⟨[], ["Ana"], 0, 100⟩
      ⟨["Usuario", "FECHA"],
        [[("Usuario", Cell.str "Ana"), ("FECHA", Cell.date 5)],
         [("Usuario", Cell.str "Beto"), ("FECHA", Cell.date 5)],
         [("Usuario", Cell.str "Ana"), ("FECHA", Cell.date 6)]]⟩ false "FECHA"
      (by decide) _ _ _ rfl).2.2 (Cell.str "Ana", 2) (by decide)

end Dashboard
